import Mathlib

/-!
Verification of the wbridge core against its natural-language specification.

The Python modules under src/wbridge are shallowly embedded as pure Lean
functions: mutable objects become explicit state passing, socket / GTK side
effects become oracle parameters, and Python dicts holding JSON values are
represented by structures with Option-typed fields for the keys the code
actually reads.  Python truthiness on strings is modelled by comparison
with the empty string, and `str.lower` / `str.upper` by character-wise
ASCII case mapping, which agrees with Python on the ASCII inputs that
occur here.
-/

namespace Wbridge

/-- Python str.lower, restricted to ASCII case mapping. -/
def pyLower (s : String) : String := String.mk (s.data.map Char.toLower)

/-- Python str.upper, restricted to ASCII case mapping. -/
def pyUpper (s : String) : String := String.mk (s.data.map Char.toUpper)

/-- Python `x or d` for an optional string field `x`: both a missing key
(None) and an empty string are falsy and fall back to the default. -/
def pyOrStr (v : Option String) (d : String) : String :=
  match v with
  | none => d
  | some s => if s = "" then d else s

/-! ## history.py : RingBuffer and HistoryStore -/

/-- Embedding of history.RingBuffer: a bounded list of strings, index 0 is
the most recent entry. -/
structure RingBuffer where
  max_size : Nat := 50
  items : List String := []
deriving Repr, DecidableEq

/-- RingBuffer.add_front: no-op on falsy (empty) text, no-op when the text
equals the current front entry, otherwise insert at index 0 (cons) and,
when the new length exceeds max_size, pop the last element (dropLast). -/
def RingBuffer.add_front (b : RingBuffer) (text : String) : RingBuffer :=
  if text = "" then b
  else if b.items.head? = some text then b
  else
    let inserted := text :: b.items
    if b.max_size < inserted.length then { b with items := inserted.dropLast }
    else { b with items := inserted }

/-- RingBuffer.get: bounds-checked positional read with a Python int index. -/
def RingBuffer.get (b : RingBuffer) (index : Int) : Option String :=
  if 0 ≤ index ∧ index < (b.items.length : Int) then b.items.get? index.toNat
  else none

/-- RingBuffer.list: full snapshot, or a slice items[: max(0, limit)]. -/
def RingBuffer.listSnap (b : RingBuffer) : Option Int → List String
  | none => b.items
  | some limit => b.items.take (max 0 limit).toNat

/-- RingBuffer.swap_last_two: returns False and leaves the buffer unchanged
when fewer than 2 entries exist, otherwise exchanges items[0] and items[1]
and returns True.  The result pair carries the (possibly) mutated buffer. -/
def RingBuffer.swap_last_two (b : RingBuffer) : Bool × RingBuffer :=
  if b.items.length < 2 then (false, b)
  else
    match b.items with
    | a0 :: a1 :: rest => (true, { b with items := a1 :: a0 :: rest })
    | _ => (false, b)

/-- Embedding of history.HistoryStore: exactly two ring buffers. -/
structure HistoryStore where
  clipboard : RingBuffer := {}
  primary : RingBuffer := {}
deriving Repr, DecidableEq

/-- HistoryStore._resolve key computation: (which or "clipboard").lower(). -/
def HistoryStore.resolveKey (which : String) : String :=
  pyLower (if which = "" then "clipboard" else which)

/-- The buffer selected by HistoryStore._resolve. -/
def HistoryStore.getBuf (s : HistoryStore) (which : String) : RingBuffer :=
  if HistoryStore.resolveKey which = "primary" then s.primary else s.clipboard

/-- HistoryStore.list. -/
def HistoryStore.listSnap (s : HistoryStore) (which : String) (limit : Option Int) : List String :=
  (s.getBuf which).listSnap limit

/-- HistoryStore.get. -/
def HistoryStore.get (s : HistoryStore) (which : String) (index : Int) : Option String :=
  (s.getBuf which).get index

/-- HistoryStore.swap_last_two: in Python the resolved buffer is mutated in
place; here the updated store is returned alongside the Bool result. -/
def HistoryStore.swap_last_two (s : HistoryStore) (which : String) : Bool × HistoryStore :=
  if HistoryStore.resolveKey which = "primary" then
    let r := s.primary.swap_last_two
    (r.1, { s with primary := r.2 })
  else
    let r := s.clipboard.swap_last_two
    (r.1, { s with clipboard := r.2 })

/-- An operation on one ring buffer, for stating invariants over operation
sequences (add_front from the selection monitor, swap_last_two from the
history.swap op). -/
inductive HOp
  | add (t : String)
  | swap
deriving Repr, DecidableEq

/-- Apply one buffer operation. -/
def applyHOp (b : RingBuffer) : HOp → RingBuffer
  | .add t => b.add_front t
  | .swap => (b.swap_last_two).2

/-- Run a sequence of buffer operations from a start state. -/
def runHOps (b : RingBuffer) (ops : List HOp) : RingBuffer :=
  ops.foldl applyHOp b

/-- The empty buffer with capacity m. -/
def emptyBuf (m : Nat) : RingBuffer := { max_size := m, items := [] }

/-- No two adjacent entries are equal. -/
def AdjacentDistinct (l : List String) : Prop := List.Chain' (· ≠ ·) l

instance (l : List String) : Decidable (AdjacentDistinct l) :=
  inferInstanceAs (Decidable (List.Chain' (· ≠ ·) l))

/-! ### Helper lemmas about the ring buffer -/

theorem add_front_max_size (b : RingBuffer) (t : String) :
    (b.add_front t).max_size = b.max_size := by
  unfold RingBuffer.add_front
  split
  · rfl
  · split
    · rfl
    · dsimp only
      split <;> rfl

theorem swap_last_two_max_size (b : RingBuffer) :
    (b.swap_last_two).2.max_size = b.max_size := by
  unfold RingBuffer.swap_last_two
  split
  · rfl
  · split <;> rfl

theorem add_front_length_le (b : RingBuffer) (t : String)
    (h : b.items.length ≤ b.max_size) :
    (b.add_front t).items.length ≤ b.max_size := by
  unfold RingBuffer.add_front
  split
  · exact h
  · split
    · exact h
    · dsimp only
      split
      · rename_i hover
        simp only [List.length_dropLast, List.length_cons]
        omega
      · rename_i hover
        simp only [List.length_cons] at *
        omega

theorem swap_last_two_length (b : RingBuffer) :
    (b.swap_last_two).2.items.length = b.items.length := by
  unfold RingBuffer.swap_last_two
  split
  · rfl
  · split
    · rename_i heq
      simp [heq]
    · rfl

theorem add_front_head (b : RingBuffer) (t : String)
    (ht : t ≠ "") (hcap : 1 ≤ b.max_size) :
    (b.add_front t).items.head? = some t := by
  unfold RingBuffer.add_front
  split
  · rename_i h0
    exact absurd h0 ht
  · split
    · rename_i hhead
      exact hhead
    · dsimp only
      split
      · rename_i hover
        simp only [List.length_cons] at hover
        match hb : b.items with
        | [] =>
          rw [hb] at hover
          simp only [List.length_nil] at hover
          omega
        | x :: xs => simp
      · simp

theorem add_front_dedupe (b : RingBuffer) (t : String)
    (h : b.items.head? = some t) : b.add_front t = b := by
  unfold RingBuffer.add_front
  split
  · rfl
  · simp [h]

theorem add_front_adjacentDistinct (b : RingBuffer) (t : String)
    (h : AdjacentDistinct b.items) : AdjacentDistinct (b.add_front t).items := by
  unfold RingBuffer.add_front
  split
  · exact h
  · split
    · exact h
    · rename_i hhead
      have hchain : AdjacentDistinct (t :: b.items) := by
        refine List.chain'_cons'.mpr ⟨?_, h⟩
        intro y hy hcontra
        exact hhead (hcontra ▸ hy)
      dsimp only
      split
      · exact List.Chain'.init hchain
      · exact hchain

theorem runHOps_length_le (m : Nat) (ops : List HOp) :
    (runHOps (emptyBuf m) ops).items.length ≤ m ∧ (runHOps (emptyBuf m) ops).max_size = m := by
  induction ops using List.reverseRecOn with
  | nil => simp [runHOps, emptyBuf]
  | append_singleton ops op ih =>
    have hstep : runHOps (emptyBuf m) (ops ++ [op]) = applyHOp (runHOps (emptyBuf m) ops) op := by
      simp [runHOps]
    rw [hstep]
    rcases op with t | _
    · refine ⟨?_, ?_⟩
      · have hle := add_front_length_le (runHOps (emptyBuf m) ops) t
          (by rw [ih.2]; exact ih.1)
        rw [ih.2] at hle
        simpa [applyHOp] using hle
      · have hms := add_front_max_size (runHOps (emptyBuf m) ops) t
        rw [ih.2] at hms
        simpa [applyHOp] using hms
    · refine ⟨?_, ?_⟩
      · have hlen := swap_last_two_length (runHOps (emptyBuf m) ops)
        simp only [applyHOp]
        rw [hlen]
        exact ih.1
      · have hms := swap_last_two_max_size (runHOps (emptyBuf m) ops)
        rw [ih.2] at hms
        simpa [applyHOp] using hms

theorem runAdds_adjacentDistinct (m : Nat) (ts : List String) :
    AdjacentDistinct (runHOps (emptyBuf m) (ts.map HOp.add)).items := by
  induction ts using List.reverseRecOn with
  | nil => simp [runHOps, emptyBuf, AdjacentDistinct]
  | append_singleton ts t ih =>
    have hstep : runHOps (emptyBuf m) ((ts ++ [t]).map HOp.add)
        = (runHOps (emptyBuf m) (ts.map HOp.add)).add_front t := by
      simp [runHOps, applyHOp]
    rw [hstep]
    exact add_front_adjacentDistinct _ t ih

/-- C5 counterexample trace: add x, add y, add x, then swap, from the empty
default-capacity buffer.  The swap yields items [y, x, x], which has two
equal adjacent entries. -/
def c5Trace : RingBuffer :=
  runHOps (emptyBuf 50) [.add "x", .add "y", .add "x", .swap]

/-- C5: the claim as stated is false — swap_last_two can create two equal
adjacent entries.  After add x, add y, add x, swap, the buffer is
[y, x, x], violating the adjacent-distinctness part of the invariant. -/
theorem C5_counterexample :
    c5Trace.items = ["y", "x", "x"] ∧ ¬ AdjacentDistinct c5Trace.items := by
  have h : c5Trace.items = ["y", "x", "x"] := rfl
  refine ⟨h, ?_⟩
  rw [h]
  simp [AdjacentDistinct, List.chain'_cons]

/-- C5 (amended): after every sequence of add_front / swap_last_two
operations from the empty buffer, the length stays at most the configured
maximum; adjacent-distinctness holds after every sequence consisting of
add_front operations alone (but not in general, see the counterexample);
and a non-no-op add_front inserts at index 0, dropping the last entry when
the capacity is exceeded. -/
theorem C5_ring_invariant :
    (∀ (m : Nat) (ops : List HOp), (runHOps (emptyBuf m) ops).items.length ≤ m) ∧
    (∀ (m : Nat) (ts : List String),
      AdjacentDistinct (runHOps (emptyBuf m) (ts.map HOp.add)).items) ∧
    (∀ (b : RingBuffer) (t : String), t ≠ "" → b.items.head? ≠ some t →
      (b.add_front t).items =
        if b.max_size < (t :: b.items).length then (t :: b.items).dropLast
        else t :: b.items) := by
  refine ⟨fun m ops => (runHOps_length_le m ops).1, runAdds_adjacentDistinct, ?_⟩
  intro b t ht hhead
  unfold RingBuffer.add_front
  rw [if_neg ht, if_neg hhead]
  dsimp only
  split
  · rfl
  · rfl

/-- C5 witness: concrete instances of the three amended conjuncts. -/
theorem C5_ring_invariant_witness :
    (runHOps (emptyBuf 2) [.add "a", .add "b", .add "c", .swap]).items.length ≤ 2 ∧
    AdjacentDistinct (runHOps (emptyBuf 50) (["a", "b", "a"].map HOp.add)).items ∧
    ((RingBuffer.mk 50 ["a"]).add_front "b").items =
      (if (50 : Nat) < ("b" :: ["a"]).length then ("b" :: ["a"]).dropLast
       else "b" :: ["a"]) :=
  ⟨C5_ring_invariant.1 2 [.add "a", .add "b", .add "c", .swap],
   C5_ring_invariant.2.1 50 ["a", "b", "a"],
   C5_ring_invariant.2.2 (RingBuffer.mk 50 ["a"]) "b" (by decide) (by decide)⟩

/-- C6: the claim quantifies over all texts and all buffer states; it fails
for the empty text (both adds are no-ops, so the front entry remains the
old one) and for a zero-capacity buffer (the inserted entry is immediately
evicted). -/
theorem C6_counterexample :
    (((RingBuffer.mk 50 ["a"]).add_front "").add_front "").items.head? = some "a" ∧
    some "a" ≠ some "" ∧
    (((RingBuffer.mk 0 []).add_front "x").add_front "x").items.head? = none := by
  refine ⟨rfl, by decide, rfl⟩

/-- C6 (amended): for every non-empty text T and every buffer with capacity
at least 1, add(T) followed immediately by add(T) leaves the length
unchanged relative to the state after the first add, and leaves the front
entry equal to T. -/
theorem C6_adjacent_dedupe_idempotent (b : RingBuffer) (T : String)
    (hT : T ≠ "") (hcap : 1 ≤ b.max_size) :
    ((b.add_front T).add_front T).items.length = (b.add_front T).items.length ∧
    ((b.add_front T).add_front T).items.head? = some T := by
  have h1 : (b.add_front T).items.head? = some T := add_front_head b T hT hcap
  have h2 : (b.add_front T).add_front T = b.add_front T := add_front_dedupe _ T h1
  rw [h2]
  exact ⟨rfl, h1⟩

/-- C6 witness: instantiation at the buffer [a] with capacity 50 and T = b. -/
theorem C6_adjacent_dedupe_witness :
    (((RingBuffer.mk 50 ["a"]).add_front "b").add_front "b").items.length
      = ((RingBuffer.mk 50 ["a"]).add_front "b").items.length ∧
    (((RingBuffer.mk 50 ["a"]).add_front "b").add_front "b").items.head? = some "b" :=
  C6_adjacent_dedupe_idempotent (RingBuffer.mk 50 ["a"]) "b" (by decide) (by decide)

/-- C7: swap_last_two on a buffer with fewer than 2 entries returns false
and leaves the buffer unchanged; with at least 2 entries it returns true,
exchanges exactly the entries at positions 0 and 1, and leaves every other
position (and the capacity) unchanged. -/
theorem C7_swap_last_two_spec (b : RingBuffer) :
    (b.items.length < 2 → b.swap_last_two = (false, b)) ∧
    (2 ≤ b.items.length →
      (b.swap_last_two).1 = true ∧
      (b.swap_last_two).2.items.get? 0 = b.items.get? 1 ∧
      (b.swap_last_two).2.items.get? 1 = b.items.get? 0 ∧
      (∀ i, 2 ≤ i → (b.swap_last_two).2.items.get? i = b.items.get? i) ∧
      (b.swap_last_two).2.items.length = b.items.length ∧
      (b.swap_last_two).2.max_size = b.max_size) := by
  constructor
  · intro hlt
    unfold RingBuffer.swap_last_two
    simp [hlt]
  · intro hge
    match hitems : b.items with
    | [] =>
      rw [hitems] at hge
      simp only [List.length_nil] at hge
      omega
    | [a] =>
      rw [hitems] at hge
      simp only [List.length_cons, List.length_nil] at hge
      omega
    | a0 :: a1 :: rest =>
      unfold RingBuffer.swap_last_two
      rw [hitems]
      simp only [List.length_cons]
      have hnot : ¬ (rest.length + 1 + 1 < 2) := by omega
      rw [if_neg hnot]
      refine ⟨rfl, rfl, rfl, ?_, by simp, rfl⟩
      intro i hi
      match i, hi with
      | (k + 2), _ => simp

/-- C7 witness: instantiations at a singleton buffer (failure case) and at
a three-element buffer (success case). -/
theorem C7_swap_last_two_witness :
    (RingBuffer.mk 50 ["a"]).swap_last_two = (false, RingBuffer.mk 50 ["a"]) ∧
    ((RingBuffer.mk 50 ["a", "b", "c"]).swap_last_two).1 = true ∧
    ((RingBuffer.mk 50 ["a", "b", "c"]).swap_last_two).2.items.get? 0
      = (["a", "b", "c"] : List String).get? 1 ∧
    ((RingBuffer.mk 50 ["a", "b", "c"]).swap_last_two).2.items.get? 2
      = (["a", "b", "c"] : List String).get? 2 :=
  ⟨(C7_swap_last_two_spec (RingBuffer.mk 50 ["a"])).1 (by decide),
   ((C7_swap_last_two_spec (RingBuffer.mk 50 ["a", "b", "c"])).2 (by decide)).1,
   ((C7_swap_last_two_spec (RingBuffer.mk 50 ["a", "b", "c"])).2 (by decide)).2.1,
   ((C7_swap_last_two_spec (RingBuffer.mk 50 ["a", "b", "c"])).2 (by decide)).2.2.2.1 2 (by decide)⟩

/-! ## client_ipc.py : send_request and cli_exit_code_from_response -/

/-- The fields of a JSON response object that client_ipc reads or writes.
A missing key is none.  The socket field only appears in the locally
synthesized NOT_RUNNING response. -/
structure RespD where
  ok : Option Bool := none
  error : Option String := none
  code : Option String := none
  socket : Option String := none
deriving Repr, DecidableEq

/-- Outcome of the socket phase of send_request, as observed at the end of
the with-block: which exception (if any) escaped connect/sendall/recv, or
the accumulated bytes read until a newline or connection close.  Connection
refused (the socket file exists but nothing listens) raises
ConnectionRefusedError, which is not a FileNotFoundError and therefore
lands in the generic raised case. -/
inductive RecvOutcome
  | fileNotFound
  | timedOut
  | raised (msg : String)
  | gotBytes (buf : String)
deriving Repr, DecidableEq

/-- Result of json.loads on the response line plus the isinstance(dict)
check: a parse exception with its detail string, a non-dict JSON value, or
a dict projected onto the fields the client reads. -/
inductive ParsedBody
  | failed (detail : String)
  | nonDict
  | dict (r : RespD)
deriving Repr, DecidableEq

/-- Embedding of client_ipc.send_request.  The socket interaction is
abstracted into the RecvOutcome argument and JSON decoding into the parse
oracle; everything after that point follows the source, and the function
is total, so no exception escapes on any outcome. -/
def send_request (socketPath : String) (parse : String → ParsedBody)
    (outcome : RecvOutcome) : Bool × RespD :=
  match outcome with
  | .fileNotFound =>
      (false, { ok := some false, error := some "server not running",
                code := some "NOT_RUNNING", socket := some socketPath })
  | .timedOut =>
      (false, { ok := some false, error := some "timeout", code := some "TIMEOUT" })
  | .raised msg =>
      (false, { ok := some false, error := some msg })
  | .gotBytes buf =>
      if buf = "" then
        (false, { ok := some false, error := some "empty response from server" })
      else
        match parse buf with
        | .failed detail =>
            (false, { ok := some false, error := some ("invalid json response: " ++ detail) })
        | .nonDict =>
            (false, { ok := some false, error := some "malformed response" })
        | .dict r =>
            if r.ok = some true then (true, r) else (false, r)

/-- Embedding of client_ipc.cli_exit_code_from_response.  A missing code
key reads as the empty string before upper-casing. -/
def cli_exit_code_from_response (ok : Bool) (resp : RespD) : Nat :=
  if ok then 0
  else
    let code := pyUpper (resp.code.getD "")
    if code = "INVALID_ARG" then 2
    else if code = "NOT_RUNNING" ∨ code = "TIMEOUT" then 1
    else 3

/-- C3: the claim asserts that a transport-level failure whose response
carries no code maps to exit code 1; the code maps every codeless failure
to the fallback 3, as the empty-response failure shows. -/
theorem C3_counterexample :
    cli_exit_code_from_response false
      { ok := some false, error := some "empty response from server" } = 3 ∧
    (3 : Nat) ≠ 1 := by
  refine ⟨rfl, by decide⟩

/-- C3 (amended): ok maps to 0; code INVALID_ARG maps to 2; code
NOT_RUNNING or TIMEOUT maps to 1; every other failure — including any
transport-level failure whose response carries no code — maps to the
fallback 3. -/
theorem C3_exit_code_mapping (ok : Bool) (resp : RespD) :
    (ok = true → cli_exit_code_from_response ok resp = 0) ∧
    (ok = false → pyUpper (resp.code.getD "") = "INVALID_ARG" →
      cli_exit_code_from_response ok resp = 2) ∧
    (ok = false →
      (pyUpper (resp.code.getD "") = "NOT_RUNNING" ∨
       pyUpper (resp.code.getD "") = "TIMEOUT") →
      cli_exit_code_from_response ok resp = 1) ∧
    (ok = false → resp.code = none → cli_exit_code_from_response ok resp = 3) ∧
    (ok = false → pyUpper (resp.code.getD "") ≠ "INVALID_ARG" →
      pyUpper (resp.code.getD "") ≠ "NOT_RUNNING" →
      pyUpper (resp.code.getD "") ≠ "TIMEOUT" →
      cli_exit_code_from_response ok resp = 3) := by
  refine ⟨?_, ?_, ?_, ?_, ?_⟩
  · intro h
    simp [cli_exit_code_from_response, h]
  · intro h hc
    simp [cli_exit_code_from_response, h, hc]
  · intro h hc
    have hne : pyUpper (resp.code.getD "") ≠ "INVALID_ARG" := by
      rcases hc with hc | hc <;> rw [hc] <;> decide
    simp [cli_exit_code_from_response, h, hne, hc]
  · intro h hc
    have hup : pyUpper (resp.code.getD "") = "" := by rw [hc]; rfl
    simp [cli_exit_code_from_response, h, hup]
  · intro h h2 h3 h4
    simp [cli_exit_code_from_response, h, h2, h3, h4]

/-- C3 witness: concrete instances covering the success case, the
INVALID_ARG case, the TIMEOUT case, the codeless case and the NOT_FOUND
case. -/
theorem C3_exit_code_witness :
    cli_exit_code_from_response true { ok := some true } = 0 ∧
    cli_exit_code_from_response false { code := some "INVALID_ARG" } = 2 ∧
    cli_exit_code_from_response false { code := some "TIMEOUT" } = 1 ∧
    cli_exit_code_from_response false { error := some "empty response from server" } = 3 ∧
    cli_exit_code_from_response false { code := some "NOT_FOUND" } = 3 :=
  ⟨(C3_exit_code_mapping true { ok := some true }).1 rfl,
   (C3_exit_code_mapping false { code := some "INVALID_ARG" }).2.1 rfl rfl,
   (C3_exit_code_mapping false { code := some "TIMEOUT" }).2.2.1 rfl (Or.inr rfl),
   (C3_exit_code_mapping false { error := some "empty response from server" }).2.2.2.1 rfl rfl,
   (C3_exit_code_mapping false { code := some "NOT_FOUND" }).2.2.2.2 rfl
     (by decide) (by decide) (by decide)⟩

/-- C4: the claim covers both a missing socket path and a refused
connection; a refused connection raises ConnectionRefusedError, which the
code catches only in the generic handler, so the response carries the
exception text and no NOT_RUNNING code. -/
theorem C4_counterexample :
    (send_request "/run/user/1000/wbridge.sock" (fun _ => .nonDict)
        (.raised "[Errno 111] Connection refused")).2.code = none ∧
    (send_request "/run/user/1000/wbridge.sock" (fun _ => .nonDict)
        (.raised "[Errno 111] Connection refused")).2.error
      = some "[Errno 111] Connection refused" ∧
    (none : Option String) ≠ some "NOT_RUNNING" := by
  refine ⟨rfl, rfl, by decide⟩

/-- C4 (amended): only when the socket path does not exist
(FileNotFoundError) does send_request synthesize the NOT_RUNNING failure
response (which also carries the socket path); any other connection
exception, connection refused included, yields ok false with the exception
text and no code.  In both cases the function returns normally, so no
exception escapes. -/
theorem C4_not_running_synthesis (socketPath : String)
    (parse : String → ParsedBody) :
    send_request socketPath parse .fileNotFound =
      (false, { ok := some false, error := some "server not running",
                code := some "NOT_RUNNING", socket := some socketPath }) ∧
    (∀ msg, send_request socketPath parse (.raised msg) =
      (false, { ok := some false, error := some msg })) := by
  exact ⟨rfl, fun msg => rfl⟩

/-! ## actions.py : run_http_action method resolution -/

/-- The fields of an http action dict that determine the request method
and target.  The body-related fields do not influence the method and are
not needed by the claims. -/
structure HttpAction where
  method : Option String := none
  url : Option String := none
deriving Repr, DecidableEq

/-- Embedding of the method computation in actions.run_http_action:
(action.get("method") or "POST").upper().  A missing or empty method field
falls back to "POST". -/
def http_method (action : HttpAction) : String :=
  pyUpper (pyOrStr action.method "POST")

/-- Embedding of the dispatch on the computed method in run_http_action:
requests.get is used exactly when the method equals "GET"; every other
method, the default included, is issued through requests.post. -/
def http_uses_get (action : HttpAction) : Bool :=
  http_method action = "GET"

/-- C2: an http action without a method field resolves to method "POST",
not "GET", and is issued through requests.post. -/
theorem C2_counterexample :
    http_method { url := some "http://127.0.0.1:18081/trigger" } = "POST" ∧
    "POST" ≠ "GET" ∧
    http_uses_get { url := some "http://127.0.0.1:18081/trigger" } = false := by
  refine ⟨rfl, by decide, rfl⟩

/-- C2 (amended): for every http action whose definition omits the method
field (or gives the empty, falsy string), the Action Runner resolves the
method to POST and issues the request through requests.post. -/
theorem C2_default_method (action : HttpAction)
    (h : action.method = none ∨ action.method = some "") :
    http_method action = "POST" ∧ http_uses_get action = false := by
  rcases h with h | h <;>
    simp [http_method, http_uses_get, pyOrStr, h, pyUpper]

/-- C2 witness: instantiation at an action with no method field. -/
theorem C2_default_method_witness :
    http_method { url := some "http://127.0.0.1:18081/trigger" } = "POST" ∧
    http_uses_get { url := some "http://127.0.0.1:18081/trigger" } = false :=
  C2_default_method { url := some "http://127.0.0.1:18081/trigger" } (Or.inl rfl)

/-! ## server_ipc.py : IPCServer._read framing

The server reads a chunk from a readable connection and processes it with
a per-chunk loop: for line in data.splitlines(): if not line: continue;
respond.  It never consults the per-connection buffer it registers
(register(conn, EVENT_READ, data = b"") in _accept), so a trailing
fragment without a newline is dispatched immediately as if it were a
complete line instead of being carried to the next recv. -/

/-- Python bytes.splitlines over the line terminators that can occur in
this protocol: LF, CR, and CRLF.  A trailing fragment with no terminator
becomes a final element; a terminator at the end adds no empty element. -/
def pySplitlinesAux : List Char → List Char → List (List Char)
  | [], acc => if acc.isEmpty then [] else [acc.reverse]
  | '\r' :: '\n' :: rest, acc => acc.reverse :: pySplitlinesAux rest []
  | '\n' :: rest, acc => acc.reverse :: pySplitlinesAux rest []
  | '\r' :: rest, acc => acc.reverse :: pySplitlinesAux rest []
  | c :: rest, acc => pySplitlinesAux rest (c :: acc)

/-- Python data.splitlines() on the decoded chunk. -/
def pySplitlines (data : String) : List String :=
  (pySplitlinesAux data.data []).map String.mk

/-- The lines IPCServer._read hands to _handle_line for one recv chunk:
every splitlines piece except empty ones. -/
def dispatched_lines (data : String) : List String :=
  (pySplitlines data).filter (fun l => l ≠ "")

/-- The per-connection response sequence produced by the code for a
sequence of recv chunks: one response is written per dispatched line, in
order, with no state carried between chunks. -/
def connection_responses (handle : String → RespD) (recvs : List String) : List RespD :=
  recvs.flatMap (fun data => (dispatched_lines data).map handle)

/-- Modelled from the spec: the per-connection partial-fragment buffering
that section 4.1 requires of the Transport Server and that IPCServer._read
does not implement.  Each chunk is appended to the connection buffer, only
complete newline-terminated lines are dispatched, and the trailing
fragment is retained for the next read. -/
def nlSplitAux : List Char → List Char → List (List Char)
  | [], acc => [acc.reverse]
  | '\n' :: rest, acc => acc.reverse :: nlSplitAux rest []
  | c :: rest, acc => nlSplitAux rest (c :: acc)

def buffered_feed (acc : List String × String) (data : String) : List String × String :=
  let parts := (nlSplitAux (acc.2 ++ data).data []).map String.mk
  (acc.1 ++ (parts.dropLast.filter (fun l => l ≠ "")), parts.getLastD "")

/-- Modelled from the spec: the complete lines a correctly buffering server
dispatches for a sequence of recv chunks. -/
def buffered_lines (recvs : List String) : List String :=
  (recvs.foldl buffered_feed ([], "")).1

/-- First recv chunk of the C1 failing input: one complete JSON request
followed by the head of a second request that straddles the recv
boundary. -/
def c1Recv1 : String := "\x7b\"op\":\"ping\"\x7d\n\x7b\"op\":\"ui"

/-- Second recv chunk of the C1 failing input: the tail of the second
request with its newline terminator. -/
def c1Recv2 : String := ".show\"\x7d\n"

/-- C1: the code dispatches three lines for the two straddling requests —
the complete first request, then each half of the second request as if it
were a complete line — so any handler produces three responses where the
claim requires exactly two; a server with the spec-required buffering
dispatches exactly the two complete requests. -/
theorem C1_partial_fragment_dispatch (handle : String → RespD) :
    dispatched_lines c1Recv1 ++ dispatched_lines c1Recv2
      = ["\x7b\"op\":\"ping\"\x7d", "\x7b\"op\":\"ui", ".show\"\x7d"] ∧
    (connection_responses handle [c1Recv1, c1Recv2]).length = 3 ∧
    buffered_lines [c1Recv1, c1Recv2]
      = ["\x7b\"op\":\"ping\"\x7d", "\x7b\"op\":\"ui.show\"\x7d"] ∧
    (3 : Nat) ≠ 2 := by
  refine ⟨by decide, rfl, by decide, by decide⟩

/-! ## app.py : BridgeApplication._get_selection_blocking

The server thread schedules an async clipboard read on the GTK main loop
and then busy-waits: while not done and waited < timeout_ms / 1000.0,
sleep 10 ms and add 0.01 to waited.  The float accumulator is modelled
exactly, in integer milliseconds (waited grows in steps of 10 from 0, the
comparison against the timeout is exact).  The done oracle gives the value
of the completion flag at the i-th check; textOnDone is the text the
callback stored when the flag is set.  The loop is embedded with an
iteration budget and the budget is proved sufficient, so the embedding
also witnesses termination of the loop. -/

/-- One poll loop: returns none when the iteration budget runs out
(proved unreachable for the budget used below), otherwise the observed
flag value and the accumulated wait in milliseconds. -/
def pollWait (done : Nat → Bool) (timeout_ms : Nat) :
    Nat → Nat → Nat → Option (Bool × Nat)
  | 0, _, _ => none
  | fuel + 1, waited, i =>
    if done i then some (true, waited)
    else if waited < timeout_ms then pollWait done timeout_ms fuel (waited + 10) (i + 1)
    else some (false, waited)

/-- Embedding of _get_selection_blocking: run the poll loop from zero
accumulated wait; on completion return the callback text, on timeout the
initial empty string, together with the total wait. -/
def get_selection_blocking (done : Nat → Bool) (textOnDone : String)
    (timeout_ms : Nat) : Option (String × Nat) :=
  (pollWait done timeout_ms (timeout_ms + 1) 0 0).map
    (fun r => (if r.1 then textOnDone else "", r.2))

theorem pollWait_total (done : Nat → Bool) (timeout_ms : Nat) :
    ∀ fuel waited i, timeout_ms ≤ waited + 10 * fuel →
      pollWait done timeout_ms (fuel + 1) waited i ≠ none := by
  intro fuel
  induction fuel with
  | zero =>
    intro waited i hle
    unfold pollWait
    split
    · simp
    · have hnlt : ¬ waited < timeout_ms := by omega
      rw [if_neg hnlt]
      simp
  | succ fuel ih =>
    intro waited i hle
    unfold pollWait
    split
    · simp
    · split
      · exact ih (waited + 10) (i + 1) (by omega)
      · simp

theorem pollWait_never_done (done : Nat → Bool) (timeout_ms : Nat)
    (hnever : ∀ j, done j = false) :
    ∀ fuel waited i, timeout_ms ≤ waited + 10 * fuel → waited < timeout_ms + 10 →
      ∃ w, pollWait done timeout_ms (fuel + 1) waited i = some (false, w) ∧
        w < timeout_ms + 10 := by
  intro fuel
  induction fuel with
  | zero =>
    intro waited i hle hlt
    refine ⟨waited, ?_, hlt⟩
    unfold pollWait
    rw [hnever i, if_neg (by simp)]
    rw [if_neg (by omega)]
  | succ fuel ih =>
    intro waited i hle hlt
    unfold pollWait
    rw [hnever i, if_neg (by simp)]
    by_cases hw : waited < timeout_ms
    · rw [if_pos hw]
      exact ih (waited + 10) (i + 1) (by omega) (by omega)
    · rw [if_neg hw]
      exact ⟨waited, rfl, hlt⟩

/-- C9: the blocking selection read always terminates (the poll budget is
never exhausted), and when the UI-owning context never sets the completion
flag it returns the empty string with a total wait bounded by the timeout
plus one 10 ms step. -/
theorem C9_selection_get_bounded (timeout_ms : Nat) (done : Nat → Bool)
    (textOnDone : String) :
    get_selection_blocking done textOnDone timeout_ms ≠ none ∧
    ((∀ j, done j = false) →
      ∃ w, get_selection_blocking done textOnDone timeout_ms = some ("", w) ∧
        w < timeout_ms + 10) := by
  constructor
  · unfold get_selection_blocking
    have h := pollWait_total done timeout_ms timeout_ms 0 0 (by omega)
    intro hcontra
    rcases hopt : pollWait done timeout_ms (timeout_ms + 1) 0 0 with _ | r
    · exact h hopt
    · rw [hopt] at hcontra
      simp at hcontra
  · intro hnever
    obtain ⟨w, hw, hwlt⟩ :=
      pollWait_never_done done timeout_ms hnever timeout_ms 0 0 (by omega) (by omega)
    refine ⟨w, ?_, hwlt⟩
    unfold get_selection_blocking
    rw [hw]
    simp

/-- C9 witness: the default 1000 ms timeout against a context that never
completes the read returns the empty string after at most 1009 ms of
accumulated waiting. -/
theorem C9_selection_get_witness :
    ∃ w, get_selection_blocking (fun _ => false) "never delivered" 1000
        = some ("", w) ∧ w < 1010 :=
  (C9_selection_get_bounded 1000 (fun _ => false) "never delivered").2 (fun _ => rfl)

/-! ## app.py : BridgeApplication._ipc_handler

The dispatcher is embedded as a pure function over the request fields the
code reads, the application state it consults (history store, loaded
actions/triggers snapshot, settings snapshot), and an oracle environment
for the two side-effecting collaborators: the blocking selection read and
the action runner.  Fire-and-forget GLib.idle_add enqueues do not affect
the response and are not modelled.  The trigger branch re-enters the
dispatcher recursively exactly as the code does; the recursion is embedded
with a depth budget, and exhausting the budget corresponds to Python
exceeding its recursion limit, which the server boundary would report as
an ACTION_FAILED envelope (only one level of recursion is ever used, as
the theorems show by instantiating a small budget). -/

/-- Python str.strip on ASCII whitespace. -/
def pyStrip (s : String) : String :=
  String.mk (((s.data.dropWhile Char.isWhitespace).reverse.dropWhile
    Char.isWhitespace).reverse)

/-- Result of coercing a JSON field value with Python int(): either the
parsed integer or a conversion failure. -/
inductive IntParseResult
  | ok (n : Int)
  | bad
deriving Repr, DecidableEq

/-- The source field of a request: a JSON object whose relevant key is
"from" (fromField below, since from is reserved). -/
structure SourceField where
  fromField : Option String := none
deriving Repr, DecidableEq

/-- The request fields the dispatcher reads.  A missing key is none;
unknown extra keys are ignored by the code and hence not represented. -/
structure Request where
  op : Option String := none
  which : Option String := none
  text : Option String := none
  limit : Option IntParseResult := none
  index : Option IntParseResult := none
  name : Option String := none
  source : Option SourceField := none
  cmd : Option String := none
deriving Repr, DecidableEq

/-- An action definition as the dispatcher sees it: lookup is by the name
key; the remaining type-specific fields are consumed only by the action
runner oracle. -/
structure Action where
  name : Option String := none
deriving Repr, DecidableEq

/-- The loaded actions/triggers snapshot (config.ActionsConfig). -/
structure ActionsConfig where
  actions : List Action := []
  triggers : List (String × String) := []
deriving Repr, DecidableEq

/-- Settings snapshot as a section to key to value mapping. -/
def SettingsMap := List (String × List (String × String))
deriving instance Repr, DecidableEq for SettingsMap

/-- Embedding of actions.ActionContext. -/
structure ActionContext where
  text : String
  selection_type : String
  settings_map : Option SettingsMap := none
  extra : List (String × String) := []

/-- Host application state read by the dispatcher. -/
structure AppState where
  history : HistoryStore := {}
  actionsCfg : Option ActionsConfig := none
  settings : Option SettingsMap := none

/-- Oracles for the dispatcher's side-effecting collaborators: selRead
models _get_selection_blocking per channel, runAction models
actions.run_action. -/
structure Env where
  selRead : String → String
  runAction : Action → ActionContext → Bool × String

/-- getattr(actions_cfg, "actions", []) if actions_cfg else []. -/
def actionsOf (st : AppState) : List Action :=
  match st.actionsCfg with
  | some cfg => cfg.actions
  | none => []

/-- getattr(actions_cfg, "triggers", ...) if actions_cfg else empty. -/
def triggersOf (st : AppState) : List (String × String) :=
  match st.actionsCfg with
  | some cfg => cfg.triggers
  | none => []

/-- triggers.get(cmd) on the trigger dict. -/
def lookupTrigger (st : AppState) (cmd : String) : Option String :=
  ((triggersOf st).find? (fun p => p.1 = cmd)).map (fun p => p.2)

/-- The payload of a successful response, tagged by the op echoed in it. -/
inductive RData
  | uiShow
  | selectionSet (which : String) (len : Nat)
  | selectionGet (which text : String)
  | historyList (which : String) (items : List String)
  | historyApply (which : String) (index : Int) (len : Nat)
  | historySwap (which : String) (applied : Bool) (len : Nat)
  | actionRun (name result : String)
deriving Repr, DecidableEq

/-- A dispatcher response envelope. -/
structure Response where
  ok : Bool
  error : Option String := none
  code : Option String := none
  data : Option RData := none
deriving Repr, DecidableEq

/-- What the transport layer would report if the dispatcher exceeded the
recursion budget (Python RecursionError caught at the _handle_line
boundary). -/
def recursionFailure : Response :=
  { ok := false, error := some "maximum recursion depth exceeded",
    code := some "ACTION_FAILED" }

/-- Embedding of BridgeApplication._resolve_source_text. -/
def resolve_source_text (env : Env) (source : Option SourceField)
    (text : Option String) : String × String :=
  let which := pyLower ((source.bind SourceField.fromField).getD "clipboard")
  if which = "text" then (text.getD "", "clipboard")
  else if which = "primary" then (env.selRead "primary", "primary")
  else (env.selRead "clipboard", "clipboard")

/-- The history.swap branch of _ipc_handler, as a function of the request
fields it reads: swap the resolved buffer, answer NOT_FOUND when the swap
reports failure, otherwise read the new top entry (empty string when
absent or falsy) and echo whether it was applied along with its length. -/
def history_swap_op (whichField : Option String) (st : AppState) :
    Response × AppState :=
  let which := pyLower (whichField.getD "clipboard")
  let r := st.history.swap_last_two which
  let st2 := { st with history := r.2 }
  if r.1 = false then
    ({ ok := false, error := some "not enough history items to swap",
       code := some "NOT_FOUND" }, st2)
  else
    let top := (st2.history.get which 0).getD ""
    ({ ok := true,
       data := some (.historySwap which (top != "") top.length) }, st2)

/-- The action.run branch of _ipc_handler, as a function of the request
fields it reads (name, source, text): validate the name, look the action
up in the loaded snapshot, resolve the source text, build the context and
translate the runner's (ok, message) pair into the response envelope. -/
def run_action_op (env : Env) (nameField : Option String)
    (source : Option SourceField) (textField : Option String)
    (st : AppState) : Response × AppState :=
  let name := pyStrip (nameField.getD "")
  if name = "" then
    ({ ok := false, error := some "name is required",
       code := some "INVALID_ARG" }, st)
  else if (actionsOf st).isEmpty then
    ({ ok := false, error := some "no actions configured",
       code := some "NOT_FOUND" }, st)
  else
    match (actionsOf st).find? (fun a => a.name = some name) with
    | none =>
        ({ ok := false, error := some ("action not found: " ++ name),
           code := some "NOT_FOUND" }, st)
    | some action =>
        let resolved := resolve_source_text env source textField
        let ctx : ActionContext :=
          { text := resolved.1, selection_type := resolved.2,
            settings_map := st.settings,
            extra := [("selection.type", resolved.2)] }
        let r := env.runAction action ctx
        if r.1 then
          ({ ok := true, data := some (.actionRun name r.2) }, st)
        else
          ({ ok := false, error := some r.2, code := some "ACTION_FAILED" }, st)

/-- Embedding of BridgeApplication._ipc_handler.  Branches appear in
source order; each returns the response and the (possibly updated)
application state. -/
def ipc_handler (env : Env) : Nat → Request → AppState → Response × AppState
  | 0, _, st => (recursionFailure, st)
  | fuel + 1, req, st =>
    let op := req.op.getD ""
    if op = "ui.show" then
      ({ ok := true, data := some .uiShow }, st)
    else if op = "selection.set" then
      let which := pyLower (req.which.getD "clipboard")
      let text := req.text.getD ""
      ({ ok := true, data := some (.selectionSet which text.length) }, st)
    else if op = "selection.get" then
      let which := pyLower (req.which.getD "clipboard")
      let txt := env.selRead which
      ({ ok := true, data := some (.selectionGet which txt) }, st)
    else if op = "history.list" then
      let which := pyLower (req.which.getD "clipboard")
      match req.limit with
      | some .bad =>
          ({ ok := false, error := some "limit must be an integer",
             code := some "INVALID_ARG" }, st)
      | some (.ok n) =>
          ({ ok := true,
             data := some (.historyList which (st.history.listSnap which (some n))) }, st)
      | none =>
          ({ ok := true,
             data := some (.historyList which (st.history.listSnap which none)) }, st)
    else if op = "history.apply" then
      let which := pyLower (req.which.getD "clipboard")
      match req.index.getD (.ok 0) with
      | .bad =>
          ({ ok := false, error := some "index must be an integer",
             code := some "INVALID_ARG" }, st)
      | .ok index =>
          match st.history.get which index with
          | none =>
              ({ ok := false, error := some "history index not found",
                 code := some "NOT_FOUND" }, st)
          | some text =>
              ({ ok := true,
                 data := some (.historyApply which index text.length) }, st)
    else if op = "history.swap" then
      history_swap_op req.which st
    else if op = "action.run" then
      run_action_op env req.name req.source req.text st
    else if op = "trigger" then
      let cmd := pyStrip (req.cmd.getD "")
      if cmd = "" then
        ({ ok := false, error := some "cmd is required",
           code := some "INVALID_ARG" }, st)
      else if (triggersOf st).isEmpty then
        ({ ok := false, error := some "no triggers configured",
           code := some "NOT_FOUND" }, st)
      else
        match lookupTrigger st cmd with
        | none =>
            ({ ok := false, error := some ("trigger not found: " ++ cmd),
               code := some "NOT_FOUND" }, st)
        | some targetName =>
            if targetName = "" then
              ({ ok := false, error := some ("trigger not found: " ++ cmd),
                 code := some "NOT_FOUND" }, st)
            else
              ipc_handler env fuel
                { req with op := some "action.run", name := some targetName } st
    else
      ({ ok := false, error := some ("unsupported op: " ++ op),
         code := some "INVALID_OP" }, st)

/-! ### Dispatch lemmas -/

theorem ipc_handler_op_action_run (env : Env) (fuel : Nat) (req : Request)
    (st : AppState) (hop : req.op = some "action.run") :
    ipc_handler env (fuel + 1) req st
      = run_action_op env req.name req.source req.text st := by
  simp [ipc_handler, hop]

theorem ipc_handler_action_run_fields (env : Env) (fuel : Nat)
    (r1 r2 : Request) (st : AppState)
    (hop1 : r1.op = some "action.run") (hop2 : r2.op = some "action.run")
    (hname : r1.name = r2.name) (hsrc : r1.source = r2.source)
    (htext : r1.text = r2.text) :
    ipc_handler env fuel r1 st = ipc_handler env fuel r2 st := by
  cases fuel with
  | zero => rfl
  | succ k =>
    rw [ipc_handler_op_action_run env k r1 st hop1,
        ipc_handler_op_action_run env k r2 st hop2, hname, hsrc, htext]

theorem lookupTrigger_nonempty {st : AppState} {cmd n : String}
    (h : lookupTrigger st cmd = some n) : (triggersOf st).isEmpty = false := by
  unfold lookupTrigger at h
  cases hf : (triggersOf st).find? (fun p => p.1 = cmd) with
  | none => rw [hf] at h; simp at h
  | some p =>
    have hmem := List.mem_of_find?_eq_some hf
    cases htr : triggersOf st with
    | nil => rw [htr] at hmem; simp at hmem
    | cons a l => simp [htr]

/-- Environment for the C8 concrete instances: the oracles are trivial
since the compared branches pass them through identically. -/
def c8Env : Env :=
  { selRead := fun _ => "", runAction := fun _ _ => (true, "ok") }

/-- State for the C8 concrete instances: one action act1 and one trigger
alias a mapping to it. -/
def c8State : AppState :=
  { history := {},
    actionsCfg := some { actions := [{ name := some "act1" }],
                         triggers := [("a", "act1")] },
    settings := none }

/-- C8: the claim quantifies over every trigger request; for the request
with the empty cmd (an alias absent from the configured trigger map) the
dispatcher answers INVALID_ARG before consulting the map, not the claimed
NOT_FOUND. -/
theorem C8_counterexample :
    lookupTrigger c8State "" = none ∧
    (ipc_handler c8Env 2 { op := some "trigger", cmd := some "" } c8State).1.code
      = some "INVALID_ARG" ∧
    some "INVALID_ARG" ≠ some "NOT_FOUND" := by
  refine ⟨rfl, rfl, by decide⟩

/-- C8 (amended): for every trigger request whose cmd is non-empty after
stripping: when no triggers are configured, or the alias is absent, or it
maps to an empty (falsy) name, the dispatcher returns ok false with code
NOT_FOUND and an unchanged state; when the alias maps to a non-empty
action name n, the dispatcher re-enters itself and its result equals that
of the request with op action.run and name n carrying the same source and
text fields (an empty cmd instead yields INVALID_ARG, see the
counterexample). -/
theorem C8_trigger_alias (env : Env) (fuel : Nat) (req : Request)
    (st : AppState) (hop : req.op = some "trigger")
    (hcmd : pyStrip (req.cmd.getD "") ≠ "") :
    ((triggersOf st = [] ∨
      lookupTrigger st (pyStrip (req.cmd.getD "")) = none ∨
      lookupTrigger st (pyStrip (req.cmd.getD "")) = some "") →
      (ipc_handler env (fuel + 1) req st).1.ok = false ∧
      (ipc_handler env (fuel + 1) req st).1.code = some "NOT_FOUND" ∧
      (ipc_handler env (fuel + 1) req st).2 = st) ∧
    (∀ n, lookupTrigger st (pyStrip (req.cmd.getD "")) = some n → n ≠ "" →
      ipc_handler env (fuel + 1) req st
        = ipc_handler env fuel
            { op := some "action.run", name := some n,
              source := req.source, text := req.text } st) := by
  constructor
  · rintro (htr | hlk | hlk)
    · have hie : (triggersOf st).isEmpty = true := by simp [htr]
      refine ⟨?_, ?_, ?_⟩ <;> simp [ipc_handler, hop, hcmd, hie]
    · by_cases htr : (triggersOf st).isEmpty
      · refine ⟨?_, ?_, ?_⟩ <;> simp [ipc_handler, hop, hcmd, htr]
      · refine ⟨?_, ?_, ?_⟩ <;> simp [ipc_handler, hop, hcmd, htr, hlk]
    · have htr := lookupTrigger_nonempty hlk
      refine ⟨?_, ?_, ?_⟩ <;> simp [ipc_handler, hop, hcmd, htr, hlk]
  · intro n hlk hn
    have htr := lookupTrigger_nonempty hlk
    have hstep : ipc_handler env (fuel + 1) req st
        = ipc_handler env fuel
            { req with op := some "action.run", name := some n } st := by
      simp [ipc_handler, hop, hcmd, htr, hlk, hn]
    rw [hstep]
    exact ipc_handler_action_run_fields env fuel _ _ st rfl rfl rfl rfl rfl

/-- C8 witness: the alias a resolves to act1 and the trigger request is
answered exactly like the corresponding action.run request. -/
theorem C8_trigger_alias_witness :
    ipc_handler c8Env 2 { op := some "trigger", cmd := some "a" } c8State
      = ipc_handler c8Env 1
          { op := some "action.run", name := some "act1" } c8State :=
  (C8_trigger_alias c8Env 1 { op := some "trigger", cmd := some "a" } c8State
      rfl (by decide)).2 "act1" rfl (by decide)

/-! ### History reachability: every stored entry is non-empty -/

/-- Buffer states reachable in the running application: the store starts
empty and is only ever modified through add_front (selection monitor
callbacks) and swap_last_two (the history.swap op). -/
inductive ReachableBuf : RingBuffer → Prop
  | empty (m : Nat) : ReachableBuf { max_size := m, items := [] }
  | add {b : RingBuffer} (t : String) : ReachableBuf b → ReachableBuf (b.add_front t)
  | swap {b : RingBuffer} : ReachableBuf b → ReachableBuf (b.swap_last_two).2

theorem mem_add_front {b : RingBuffer} {t e : String}
    (h : e ∈ (b.add_front t).items) : (t ≠ "" ∧ e = t) ∨ e ∈ b.items := by
  unfold RingBuffer.add_front at h
  split at h
  · exact Or.inr h
  · split at h
    · exact Or.inr h
    · rename_i hne hhead
      dsimp only at h
      split at h
      · rcases List.mem_cons.mp (List.dropLast_subset _ h) with rfl | hmem
        · exact Or.inl ⟨hne, rfl⟩
        · exact Or.inr hmem
      · rcases List.mem_cons.mp h with rfl | hmem
        · exact Or.inl ⟨hne, rfl⟩
        · exact Or.inr hmem

theorem mem_swap {b : RingBuffer} {e : String}
    (h : e ∈ (b.swap_last_two).2.items) : e ∈ b.items := by
  unfold RingBuffer.swap_last_two at h
  split at h
  · exact h
  · split at h
    · rename_i heq
      rw [heq]
      simp only at h
      rcases List.mem_cons.mp h with rfl | h2
      · simp
      · rcases List.mem_cons.mp h2 with rfl | h3
        · simp
        · simp [h3]
    · exact h

theorem reachable_entries_nonempty {b : RingBuffer} (h : ReachableBuf b) :
    ∀ e ∈ b.items, e ≠ "" := by
  induction h with
  | empty m => intro e he; simp at he
  | add t _ ih =>
    intro e he
    rcases mem_add_front he with ⟨hne, rfl⟩ | hmem
    · exact hne
    · exact ih e hmem
  | swap _ ih =>
    intro e he
    exact ih e (mem_swap he)

theorem swap_top_mem {b : RingBuffer} (h : (b.swap_last_two).1 = true) :
    ∃ t, (b.swap_last_two).2.get 0 = some t ∧ t ∈ b.items := by
  rcases b with ⟨m, items⟩
  match items with
  | [] => simp [RingBuffer.swap_last_two] at h
  | [a] => simp [RingBuffer.swap_last_two] at h
  | a0 :: a1 :: rest =>
    have hnot : ¬ ((RingBuffer.mk m (a0 :: a1 :: rest)).items.length < 2) := by
      simp
    have hswap : (RingBuffer.mk m (a0 :: a1 :: rest)).swap_last_two
        = (true, RingBuffer.mk m (a1 :: a0 :: rest)) := by
      unfold RingBuffer.swap_last_two
      rw [if_neg hnot]
    refine ⟨a1, ?_, by simp⟩
    rw [hswap]
    simp [RingBuffer.get]
    omega

theorem string_length_pos {t : String} (h : t ≠ "") : 0 < t.length := by
  rcases t with ⟨data⟩
  cases data with
  | nil => exact absurd (by decide) h
  | cons c cs => simp [String.length]

theorem store_swap_top {s : HistoryStore} {which : String}
    (h : (s.swap_last_two which).1 = true) :
    ∃ t, ((s.swap_last_two which).2).get which 0 = some t ∧
      t ∈ (s.getBuf which).items := by
  by_cases hkey : HistoryStore.resolveKey which = "primary"
  · unfold HistoryStore.swap_last_two at h ⊢
    rw [if_pos hkey] at h ⊢
    obtain ⟨t, hget, hmem⟩ := swap_top_mem h
    refine ⟨t, ?_, ?_⟩
    · unfold HistoryStore.get HistoryStore.getBuf
      rw [if_pos hkey]
      exact hget
    · unfold HistoryStore.getBuf
      rw [if_pos hkey]
      exact hmem
  · unfold HistoryStore.swap_last_two at h ⊢
    rw [if_neg hkey] at h ⊢
    obtain ⟨t, hget, hmem⟩ := swap_top_mem h
    refine ⟨t, ?_, ?_⟩
    · unfold HistoryStore.get HistoryStore.getBuf
      rw [if_neg hkey]
      exact hget
    · unfold HistoryStore.getBuf
      rw [if_neg hkey]
      exact hmem

/-- C10: every entry held by a reachable ring buffer is a non-empty
string (add_front silently discards falsy text, swap only permutes), and
therefore every successful history.swap response reports applied true
with a positive length — the applied false form of the success response
cannot occur. -/
theorem C10_swap_success_applied :
    (∀ b : RingBuffer, ReachableBuf b → ∀ e ∈ b.items, e ≠ "") ∧
    (∀ (env : Env) (fuel : Nat) (req : Request) (st : AppState),
      ReachableBuf st.history.clipboard → ReachableBuf st.history.primary →
      req.op = some "history.swap" →
      (ipc_handler env (fuel + 1) req st).1.ok = true →
      ∃ w l, (ipc_handler env (fuel + 1) req st).1.data
          = some (.historySwap w true l) ∧ 0 < l) := by
  refine ⟨fun b hb => reachable_entries_nonempty hb, ?_⟩
  intro env fuel req st hc hp hop hok
  have hred : ipc_handler env (fuel + 1) req st = history_swap_op req.which st := by
    simp [ipc_handler, hop]
  rw [hred] at hok ⊢
  by_cases hswap : (st.history.swap_last_two (pyLower (req.which.getD "clipboard"))).1 = true
  · obtain ⟨t, hget, hmem⟩ := store_swap_top hswap
    have hreach : ReachableBuf
        (st.history.getBuf (pyLower (req.which.getD "clipboard"))) := by
      unfold HistoryStore.getBuf
      split
      · exact hp
      · exact hc
    have htne : t ≠ "" := reachable_entries_nonempty hreach t hmem
    refine ⟨pyLower (req.which.getD "clipboard"), t.length, ?_, string_length_pos htne⟩
    unfold history_swap_op
    simp only [hswap, Bool.true_eq_false, if_false, hget]
    simp [htne]
  · exfalso
    unfold history_swap_op at hok
    rw [Bool.not_eq_true] at hswap
    simp only [hswap, if_true] at hok
    exact Bool.false_ne_true hok

/-- Environment for the C10 concrete instance. -/
def c10Env : Env :=
  { selRead := fun _ => "", runAction := fun _ _ => (true, "ok") }

/-- State for the C10 concrete instance: a clipboard history built by two
monitor additions. -/
def c10State : AppState :=
  { history := { clipboard := ((emptyBuf 50).add_front "x").add_front "y",
                 primary := emptyBuf 50 },
    actionsCfg := none, settings := none }

/-- C10 witness: swapping a two-entry clipboard history succeeds and the
response carries applied true with a positive length. -/
theorem C10_swap_success_witness :
    ∃ w l, (ipc_handler c10Env 1
        { op := some "history.swap", which := some "clipboard" } c10State).1.data
        = some (.historySwap w true l) ∧ 0 < l :=
  C10_swap_success_applied.2 c10Env 0
    { op := some "history.swap", which := some "clipboard" } c10State
    (ReachableBuf.add "y" (ReachableBuf.add "x" (ReachableBuf.empty 50)))
    (ReachableBuf.empty 50) rfl rfl

end Wbridge
